import Mathlib

/-!
Verification development for the Binance futures monitor / decision engine.

The JavaScript sources are shallowly embedded over exact rationals:
a JS number that the code may observe as `undefined`, `null`, `NaN` or an
infinity is embedded as `Option ℚ` with `none` for every non-finite case
(the code under study always guards such values with `Number.isFinite` /
`typeof` checks before doing arithmetic); a JS number that is always a
finite numeric value is embedded as a plain `ℚ`.  Mutation of the ambient
per-symbol state is embedded as explicit state passing: every function
returns the successor state next to its JS return value.
-/

namespace TesBinen

/-- JS helper `toNumber(value, fallback)` (src/src/simulator.js, liveTrader.js):
`Number(value)` with a fallback when the result is not finite.  `none`
models a missing / non-finite input. -/
def toNumber (value : Option ℚ) (fallback : ℚ) : ℚ :=
  value.getD fallback

/-- JS helper `clamp(value, min, max) = Math.max(min, Math.min(max, value))`
(src/src/utils.js and src/src/simulator.js). -/
def jsClamp (value lo hi : ℚ) : ℚ :=
  max lo (min hi value)

/-- JS `Math.floor` on a finite number, landing in the integers. -/
def jsFloor (q : ℚ) : ℤ :=
  ⌊q⌋

/-- JS helper `isValidPrice(value)` (src/src/simulator.js, and
`isFinitePrice` in src/src/binance.js): a finite number strictly above 0.
A `none` input models the `typeof`/`NaN`/infinity rejections. -/
def isValidPrice (value : Option ℚ) : Bool :=
  match value with
  | some x => decide (0 < x)
  | none => false

/-- JS `array.slice(-n)` for `n ≥ 1`: the last `n` elements. -/
def takeLast (n : ℕ) (l : List α) : List α :=
  l.drop (l.length - n)

/-! ## Simulator (src/src/simulator.js) -/

/-- Side of a simulated trade: `'long' | 'short'`. -/
inductive TradeSide
  | long
  | short
deriving DecidableEq, Repr

/-- Exit reasons of the simulated trade state machine. -/
inductive ExitReason
  | SL_ROI
  | TRAIL_ROI
  | LOCK_PROFIT
deriving DecidableEq, Repr

/-- The raw `simConfig` object handed to `createDefaults`; each field is a
possibly-missing JS number. -/
structure SimConfigIn where
  marginUsd : Option ℚ
  leverage : Option ℚ
  stopLossRoiMinPct : Option ℚ
  stopLossRoiMaxPct : Option ℚ
  trailActivateRoiMinPct : Option ℚ
  trailActivateRoiMaxPct : Option ℚ
  trailDdRoiMinPct : Option ℚ
  trailDdRoiMaxPct : Option ℚ
  minNetProfitUsd : Option ℚ
  feeRatePct : Option ℚ
deriving DecidableEq, Repr

/-- Sanitized simulator configuration returned by `createDefaults`. -/
structure SimDefaults where
  marginUsd : ℚ
  leverage : ℚ
  stopLossRoiMinPct : ℚ
  stopLossRoiMaxPct : ℚ
  trailActivateRoiMinPct : ℚ
  trailActivateRoiMaxPct : ℚ
  trailDdRoiMinPct : ℚ
  trailDdRoiMaxPct : ℚ
  minNetProfitUsd : ℚ
  feeRatePct : ℚ
deriving DecidableEq, Repr

/-- Source `createDefaults(simConfig)` (src/src/simulator.js lines 16-38). -/
def createDefaults (simConfig : SimConfigIn) : SimDefaults :=
  let slMin := max 1 (toNumber simConfig.stopLossRoiMinPct 8)
  let slMax := max slMin (toNumber simConfig.stopLossRoiMaxPct 15)
  let trailActivateMin := max (1/10) (toNumber simConfig.trailActivateRoiMinPct 10)
  let trailActivateMax := max trailActivateMin (toNumber simConfig.trailActivateRoiMaxPct 20)
  let trailDdMin := max (1/10) (toNumber simConfig.trailDdRoiMinPct 2)
  let trailDdMax := max trailDdMin (toNumber simConfig.trailDdRoiMaxPct 4)
  { marginUsd := max (1/10) (toNumber simConfig.marginUsd 10)
    leverage := max 1 (toNumber simConfig.leverage 20)
    stopLossRoiMinPct := slMin
    stopLossRoiMaxPct := slMax
    trailActivateRoiMinPct := trailActivateMin
    trailActivateRoiMaxPct := trailActivateMax
    trailDdRoiMinPct := trailDdMin
    trailDdRoiMaxPct := trailDdMax
    minNetProfitUsd := max 0 (toNumber simConfig.minNetProfitUsd (3/100))
    feeRatePct := max 0 (toNumber simConfig.feeRatePct (1/20)) }

/-- Source `calculateRoiPct(pnlUsd, marginUsd)` (src/src/simulator.js lines 54-57):
0 when the margin is 0 (the `typeof` guards cannot fire over ℚ). -/
def calculateRoiPct (pnlUsd marginUsd : ℚ) : ℚ :=
  if marginUsd = 0 then 0 else pnlUsd / marginUsd * 100

/-- Source `interpolateByTrigger(min, max, triggerPct)` (src/src/simulator.js lines
59-65).  `triggerPct = none` models the non-finite input replaced by the
floor 0.08. -/
def interpolateByTrigger (lo hi : ℚ) (triggerPct : Option ℚ) : ℚ :=
  let safeTrigger := toNumber triggerPct (2/25)
  let t := jsClamp ((safeTrigger - 2/25) / (9/5 - 2/25)) 0 1
  lo + (hi - lo) * t

/-- The `meta` object stored on a trade by `createTrade` via
`maybeOpenTrade` (src/src/simulator.js lines 180-185). -/
structure TradeMeta where
  cycleId : ℚ
  triggerLongAbove : Option ℚ
  triggerShortBelow : Option ℚ
  setupTriggerPct : Option ℚ
deriving DecidableEq, Repr

/-- An `ActiveTrade` record as built by `createTrade`
(src/src/simulator.js lines 83-106). -/
structure ActiveTrade where
  side : TradeSide
  entryPrice : ℚ
  entryTime : ℚ
  marginUsd : ℚ
  leverage : ℚ
  positionValueUsd : ℚ
  quantity : ℚ
  stopLossRoiPct : ℚ
  trailActivateRoiPct : ℚ
  trailDdRoiPct : ℚ
  minNetProfitUsd : ℚ
  feeRatePct : ℚ
  entryFeeUsd : ℚ
  estimatedExitFeeUsd : ℚ
  trailingArmed : Bool
  peakNetPnlUsd : ℚ
  peakRoiPct : ℚ
  meta : TradeMeta
deriving DecidableEq, Repr

/-- A `ClosedTrade` record: the spread of the active trade
(`{...trade, ...}`) plus the exit fields (src/src/simulator.js lines
139-149). -/
structure ClosedTrade where
  trade : ActiveTrade
  exitPrice : ℚ
  exitTime : ℚ
  exitReason : ExitReason
  grossPnlUsd : ℚ
  feesUsd : ℚ
  pnlUsd : ℚ
  roiPct : ℚ
  isWin : Bool
deriving DecidableEq, Repr

/-- Per-symbol aggregate simulation stats. -/
structure SimStats where
  total : ℕ
  wins : ℕ
  losses : ℕ
  realizedPnlUsd : ℚ
deriving DecidableEq, Repr

/-- Per-symbol simulator state (`createSymbolSimState`,
src/src/simulator.js lines 40-52). -/
structure SymbolSimState where
  activeTrade : Option ActiveTrade
  history : List ClosedTrade
  stats : SimStats
  lastClosed : Option ClosedTrade
deriving DecidableEq, Repr

/-- Source `createSymbolSimState()` (src/src/simulator.js lines 40-52). -/
def createSymbolSimState : SymbolSimState :=
  { activeTrade := none, history := [], stats := ⟨0, 0, 0, 0⟩, lastClosed := none }

/-- Source `createTrade(side, entryPrice, now, config, meta)`
(src/src/simulator.js lines 67-107). -/
def createTrade (side : TradeSide) (entryPrice : Option ℚ) (now : ℚ)
    (config : SimDefaults) (meta : TradeMeta) : Option ActiveTrade :=
  match entryPrice with
  | none => none
  | some entryPrice =>
    if 0 < entryPrice then
      let stopLossRoiPct :=
        interpolateByTrigger config.stopLossRoiMinPct config.stopLossRoiMaxPct meta.setupTriggerPct
      let trailActivateRoiPct :=
        interpolateByTrigger config.trailActivateRoiMinPct config.trailActivateRoiMaxPct meta.setupTriggerPct
      let trailDdRoiPct :=
        interpolateByTrigger config.trailDdRoiMinPct config.trailDdRoiMaxPct meta.setupTriggerPct
      let positionValueUsd := config.marginUsd * config.leverage
      let quantity := positionValueUsd / entryPrice
      if 0 < quantity then
        let entryFeeUsd := positionValueUsd * config.feeRatePct / 100
        let estimatedExitFeeUsd := positionValueUsd * config.feeRatePct / 100
        let netAtEntryUsd := -(entryFeeUsd + estimatedExitFeeUsd)
        let minNetProfitUsd := max config.minNetProfitUsd ((entryFeeUsd + estimatedExitFeeUsd) * (5/4))
        some
          { side := side
            entryPrice := entryPrice
            entryTime := now
            marginUsd := config.marginUsd
            leverage := config.leverage
            positionValueUsd := positionValueUsd
            quantity := quantity
            stopLossRoiPct := stopLossRoiPct
            trailActivateRoiPct := trailActivateRoiPct
            trailDdRoiPct := trailDdRoiPct
            minNetProfitUsd := minNetProfitUsd
            feeRatePct := config.feeRatePct
            entryFeeUsd := entryFeeUsd
            estimatedExitFeeUsd := estimatedExitFeeUsd
            trailingArmed := false
            peakNetPnlUsd := netAtEntryUsd
            peakRoiPct := calculateRoiPct netAtEntryUsd config.marginUsd
            meta := meta }
      else none
    else none

/-- Source `calculateGrossPnl(trade, price)` (src/src/simulator.js lines 109-113):
0 unless the price is a valid price (the quantity-finiteness guard cannot
fire over ℚ). -/
def calculateGrossPnl (trade : ActiveTrade) (price : ℚ) : ℚ :=
  if 0 < price then
    match trade.side with
    | TradeSide.long => (price - trade.entryPrice) * trade.quantity
    | TradeSide.short => (trade.entryPrice - price) * trade.quantity
  else 0

/-- Result record of `calculateNetPnl`. -/
structure NetPnlCalc where
  grossPnlUsd : ℚ
  totalFeesUsd : ℚ
  netPnlUsd : ℚ
deriving DecidableEq, Repr

/-- Source `calculateNetPnl(trade, price)` (src/src/simulator.js lines 115-127).
The exit fee is charged on the exit notional `|quantity * price|`.  The
JS `|| 0` fallbacks on `quantity`, `feeRatePct` and `entryFeeUsd` are
identities over ℚ (0 maps to 0). -/
def calculateNetPnl (trade : ActiveTrade) (price : ℚ) : NetPnlCalc :=
  let grossPnlUsd := calculateGrossPnl trade price
  let exitNotionalUsd := |trade.quantity * price|
  let exitFeeUsd := exitNotionalUsd * trade.feeRatePct / 100
  let totalFeesUsd := trade.entryFeeUsd + exitFeeUsd
  { grossPnlUsd := grossPnlUsd
    totalFeesUsd := totalFeesUsd
    netPnlUsd := grossPnlUsd - totalFeesUsd }

/-- Source `closeTrade(simState, price, now, reason)` (src/src/simulator.js lines
129-163).  Returns the JS return value next to the successor state.  The
`Number.isFinite(pnlCalc.netPnlUsd)` guard always holds over ℚ. -/
def closeTrade (simState : SymbolSimState) (price now : ℚ) (reason : ExitReason) :
    Option ClosedTrade × SymbolSimState :=
  match simState.activeTrade with
  | none => (none, simState)
  | some trade =>
    let pnlCalc := calculateNetPnl trade price
    let roiPct := calculateRoiPct pnlCalc.netPnlUsd trade.marginUsd
    let isWin := decide (0 < pnlCalc.netPnlUsd)
    let closed : ClosedTrade :=
      { trade := trade
        exitPrice := price
        exitTime := now
        exitReason := reason
        grossPnlUsd := pnlCalc.grossPnlUsd
        feesUsd := pnlCalc.totalFeesUsd
        pnlUsd := pnlCalc.netPnlUsd
        roiPct := roiPct
        isWin := isWin }
    let history1 := simState.history ++ [closed]
    let history2 := if 30 < history1.length then history1.drop 1 else history1
    let stats := simState.stats
    let stats1 : SimStats :=
      { total := stats.total + 1
        wins := if isWin then stats.wins + 1 else stats.wins
        losses := if isWin then stats.losses else stats.losses + 1
        realizedPnlUsd := stats.realizedPnlUsd + pnlCalc.netPnlUsd }
    (some closed,
      { simState with
          activeTrade := none
          lastClosed := some closed
          history := history2
          stats := stats1 })

/-- Plan / analysis status strings `'WAIT' | 'SIDEWAYS' | 'SETUP'`. -/
inductive PlanStatus
  | WAIT
  | SIDEWAYS
  | SETUP
deriving DecidableEq, Repr

/-- A `DecisionPlan` as stored in `decisionPlanBySymbol`
(src/src/binance.js lines 449-463). -/
structure DecisionPlan where
  cycleId : ℚ
  status : PlanStatus
  reason : String
  triggerPct : ℚ
  flowImbalance : Option ℚ
  flowSamples : Option ℚ
  basePrice : Option ℚ
  longAbove : Option ℚ
  shortBelow : Option ℚ
  createdAt : ℚ
  hasTriggered : Bool
deriving DecidableEq, Repr

/-- The flow-imbalance veto of `maybeOpenTrade` (src/src/simulator.js
lines 174-177): with finite flow metrics and at least 20 samples, a long
entry is rejected below -0.05 imbalance and a short entry above +0.05. -/
def flowGateBlocked (side : TradeSide) (flowImbalance flowSamples : Option ℚ) : Bool :=
  match flowImbalance, flowSamples with
  | some imb, some smp =>
    decide (20 ≤ smp) &&
      ((side == TradeSide.long && decide (imb < -(1/20))) ||
        (side == TradeSide.short && decide ((1/20) < imb)))
  | _, _ => false

/-- Source `maybeOpenTrade(simState, decisionPlan, livePrice, now, simConfig)`
(src/src/simulator.js lines 165-192).  The JS function mutates `simState`
and `decisionPlan`; the embedding returns the JS return value next to the
successor simulator state and plan. -/
def maybeOpenTrade (simState : SymbolSimState) (decisionPlan : Option DecisionPlan)
    (livePrice : Option ℚ) (now : ℚ) (simConfig : SimConfigIn) :
    Option ActiveTrade × SymbolSimState × Option DecisionPlan :=
  if simState.activeTrade.isSome then (none, simState, decisionPlan)
  else
    match decisionPlan with
    | none => (none, simState, none)
    | some plan =>
      if plan.status ≠ PlanStatus.SETUP ∨ plan.hasTriggered then (none, simState, some plan)
      else
        match livePrice with
        | none => (none, simState, some plan)
        | some lp =>
          if 0 < lp then
            match plan.longAbove, plan.shortBelow with
            | some la, some sb =>
              if 0 < la ∧ 0 < sb then
                match
                  (if la ≤ lp then some TradeSide.long
                   else if lp ≤ sb then some TradeSide.short
                   else none) with
                | none => (none, simState, some plan)
                | some side =>
                  if flowGateBlocked side plan.flowImbalance plan.flowSamples then
                    (none, simState, some plan)
                  else
                    match
                      createTrade side (some lp) now (createDefaults simConfig)
                        { cycleId := plan.cycleId
                          triggerLongAbove := plan.longAbove
                          triggerShortBelow := plan.shortBelow
                          setupTriggerPct := some plan.triggerPct } with
                    | none => (none, simState, some plan)
                    | some nextTrade =>
                      (some nextTrade,
                        { simState with activeTrade := some nextTrade },
                        some { plan with hasTriggered := true })
              else (none, simState, some plan)
            | none, _ => (none, simState, some plan)
            | some _, none => (none, simState, some plan)
          else (none, simState, some plan)

/-- Source `updateOpenTrade(simState, livePrice, now)` (src/src/simulator.js lines
194-226): stop-loss check first, then peak update, trailing arm, trailing
drawdown close and lock-profit close. -/
def updateOpenTrade (simState : SymbolSimState) (livePrice : Option ℚ) (now : ℚ) :
    Option ClosedTrade × SymbolSimState :=
  match simState.activeTrade with
  | none => (none, simState)
  | some trade =>
    match livePrice with
    | none => (none, simState)
    | some price =>
      if 0 < price then
        let pnlCalc := calculateNetPnl trade price
        let roiPct := calculateRoiPct pnlCalc.netPnlUsd trade.marginUsd
        if roiPct ≤ -trade.stopLossRoiPct then closeTrade simState price now ExitReason.SL_ROI
        else
          let trade1 :=
            if trade.peakNetPnlUsd < pnlCalc.netPnlUsd then
              { trade with peakNetPnlUsd := pnlCalc.netPnlUsd, peakRoiPct := roiPct }
            else trade
          let trade2 :=
            if ¬trade1.trailingArmed ∧ trade1.trailActivateRoiPct ≤ roiPct then
              { trade1 with trailingArmed := true }
            else trade1
          let simState1 := { simState with activeTrade := some trade2 }
          if trade2.trailingArmed then
            let drawdownRoiPct := trade2.peakRoiPct - roiPct
            if trade2.trailDdRoiPct ≤ drawdownRoiPct ∧ trade2.minNetProfitUsd ≤ pnlCalc.netPnlUsd then
              closeTrade simState1 price now ExitReason.TRAIL_ROI
            else if trade2.minNetProfitUsd ≤ trade2.peakNetPnlUsd ∧ pnlCalc.netPnlUsd ≤ trade2.minNetProfitUsd then
              closeTrade simState1 price now ExitReason.LOCK_PROFIT
            else (none, simState1)
          else (none, simState1)
      else (none, simState)

/-! ## Strategy analyzer (src/src/strategy.js) -/

/-- Source `HISTORY_CANDLES` (src/src/config.js line 38, default 72). -/
def HISTORY_CANDLES : ℕ := 72

/-- Source `DECISION_WINDOW_MS` (src/src/config.js line 40, default five minutes). -/
def DECISION_WINDOW_MS : ℚ := 300000

/-- Source `FIVE_MINUTES_MS` (src/src/config.js line 3). -/
def FIVE_MINUTES_MS : ℚ := 300000

/-- Source `FLOW_LOOKBACK_MS` (src/src/config.js line 42, default 60 s). -/
def FLOW_LOOKBACK_MS : ℚ := 60000

/-- A candle of the per-symbol ring.  `openP` embeds the JS field named
after the Lean keyword; all numeric fields are finite rationals. -/
structure Candle where
  openTime : ℚ
  openP : ℚ
  high : ℚ
  low : ℚ
  close : ℚ
  volume : ℚ
  closeTime : ℚ
deriving DecidableEq, Repr

/-- Source `ema(values, period)` (src/src/strategy.js lines 6-17): seeded with the
first value, then folded with alpha weight 2 / (period + 1). -/
def ema (values : List ℚ) (period : ℚ) : Option ℚ :=
  match values with
  | [] => none
  | v :: rest =>
    let alpha := 2 / (period + 1)
    some (rest.foldl (fun value x => alpha * x + (1 - alpha) * value) v)

/-- Source `average(values)` (src/src/strategy.js lines 19-22). -/
def average (values : List ℚ) : ℚ :=
  if values.length = 0 then 0 else values.sum / (values.length : ℚ)

/-- Source `stdDev(values)` (src/src/utils.js lines 22-27).  The final
`Math.sqrt` of the rational variance has no exact rational image, so the
square-root map is a parameter of the embedding; every property proved
below holds for an arbitrary such map. -/
def stdDev (sqrtQ : ℚ → ℚ) (values : List ℚ) : ℚ :=
  if values.length < 2 then 0
  else
    let mean := values.sum / (values.length : ℚ)
    let variance := (values.map (fun v => (v - mean) ^ 2)).sum / (values.length : ℚ)
    sqrtQ variance

/-- The returns loop of `analyzeDecision` (src/src/strategy.js lines
56-61): relative returns over consecutive close pairs with both sides
positive. -/
def consecutiveReturns (closes : List ℚ) : List ℚ :=
  (closes.zip closes.tail).filterMap fun pc =>
    if 0 < pc.1 ∧ 0 < pc.2 then some ((pc.2 - pc.1) / pc.1) else none

/-- A `DecisionAnalysis` value (src/src/strategy.js).  The flow fields are
absent (`none`) in every result of this analyzer version; interpolated
display text in `reason` is reduced to its constant part. -/
structure DecisionAnalysis where
  status : PlanStatus
  reason : String
  longAbove : Option ℚ
  shortBelow : Option ℚ
  triggerPct : ℚ
  flowImbalance : Option ℚ
  flowSamples : Option ℚ
deriving DecidableEq, Repr

/-- The trigger computation of `analyzeDecision` (src/src/strategy.js
lines 55-69 and 80): `clamp(atrPct * 0.6 + volPct * 0.8, 0.08, 1.8)`. -/
def triggerPctOf (sqrtQ : ℚ → ℚ) (candles : List Candle) : ℚ :=
  let closes := candles.map Candle.close
  let returns := consecutiveReturns closes
  let rangesPct := (takeLast 14 candles).map fun c =>
    if c.close = 0 then 0 else |c.high - c.low| / c.close * 100
  let atrPct := average rangesPct
  let volPct := stdDev sqrtQ returns * 100
  jsClamp (atrPct * (3/5) + volPct * (4/5)) (2/25) (9/5)

/-- The EMA trend of `analyzeDecision` (src/src/strategy.js lines 71-73);
a falsy (zero or null) fast or slow EMA yields 0. -/
def trendPctOf (candles : List Candle) : ℚ :=
  let closes := candles.map Candle.close
  let fast := ema (takeLast 30 closes) 9
  let slow := ema (takeLast 40 closes) 21
  match fast, slow with
  | some f, some s => if f = 0 ∨ s = 0 then 0 else (f - s) / s * 100
  | _, _ => 0

/-- The volume ratio of `analyzeDecision` (src/src/strategy.js lines
75-78): last volume over the 20-candle average. -/
def volumeRelOf (candles : List Candle) : ℚ :=
  let volumes := (takeLast 20 candles).map Candle.volume
  let lastVolume := (candles.getLast?).elim 0 Candle.volume
  let avgVolume := average volumes
  if 0 < avgVolume then lastVolume / avgVolume else 0

/-- Source `analyzeDecision(candles, lastPrice, msToNextCandle)`
(src/src/strategy.js lines 24-107).  `lastPrice = none` models a
missing/NaN live price and `msToNextCandle = none` a non-finite
countdown; the indicator computations are the named helpers above. -/
def analyzeDecision (sqrtQ : ℚ → ℚ) (candles : List Candle)
    (lastPrice : Option ℚ) (msToNextCandle : Option ℚ) : DecisionAnalysis :=
  match lastPrice with
  | none => ⟨PlanStatus.WAIT, "No live price", none, none, 0, none, none⟩
  | some lastPrice =>
    if candles.length < HISTORY_CANDLES then
      ⟨PlanStatus.WAIT, "Need more candles", none, none, 0, none, none⟩
    else
      match msToNextCandle with
      | none => ⟨PlanStatus.WAIT, "Outside decision window", none, none, 0, none, none⟩
      | some ms =>
        if DECISION_WINDOW_MS < ms then
          ⟨PlanStatus.WAIT, "Outside decision window", none, none, 0, none, none⟩
        else
          let triggerPct := triggerPctOf sqrtQ candles
          let longAbove := lastPrice * (1 + triggerPct / 100)
          let shortBelow := lastPrice * (1 - triggerPct / 100)
          let weakTrend := |trendPctOf candles| < 2/25
          let weakVolume := volumeRelOf candles < 3/4
          if weakTrend ∧ weakVolume then
            ⟨PlanStatus.SIDEWAYS, "Weak trend + weak volume",
              some longAbove, some shortBelow, triggerPct, none, none⟩
          else
            ⟨PlanStatus.SETUP, "bias | trigger | vol",
              some longAbove, some shortBelow, triggerPct, none, none⟩

/-! ## Symbol state store (src/src/binance.js) -/

/-- Side of an aggregated-trade window entry: `'buy' | 'sell'`. -/
inductive FlowSide
  | buy
  | sell
deriving DecidableEq, Repr

/-- An entry of the rolling aggregated-trade window
(src/src/binance.js lines 372-376). -/
structure AggTrade where
  ts : ℚ
  qty : ℚ
  side : FlowSide
deriving DecidableEq, Repr

/-- Per-symbol mutable state (src/src/binance.js lines 204-219; the
`symbol`/`marketSymbol` identification fields are carried by the owning
map key). -/
structure SymbolState where
  candles : List Candle
  markPrice : Option ℚ
  markTs : Option ℚ
  tradePrice : Option ℚ
  tradeQty : Option ℚ
  tradeTs : Option ℚ
  aggTrades : List AggTrade
  lastVolume5m : Option ℚ
  nextCandleCloseTs : Option ℚ
  lastStreamAt : Option ℚ
  error : Option String
deriving DecidableEq, Repr

/-- The freshly initialised per-symbol state. -/
def initialSymbolState : SymbolState :=
  { candles := [], markPrice := none, markTs := none, tradePrice := none,
    tradeQty := none, tradeTs := none, aggTrades := [], lastVolume5m := none,
    nextCandleCloseTs := none, lastStreamAt := none, error := none }

/-- The merge step of `upsertClosedCandle` (src/src/binance.js lines
311-317): append when the close time beats the last ring entry, replace
the last entry on an exact tie, drop otherwise. -/
def ringAppend (candles : List Candle) (candle : Candle) : List Candle :=
  match candles.getLast? with
  | none => candles ++ [candle]
  | some last =>
    if last.closeTime < candle.closeTime then candles ++ [candle]
    else if candle.closeTime = last.closeTime then candles.dropLast ++ [candle]
    else candles

/-- The truncation step of `upsertClosedCandle` (src/src/binance.js lines
319-321): keep only the newest `n` entries via `slice(-n)` when the ring
overflows (for `n = 0` JS `slice(-0)` keeps the whole array). -/
def ringTrunc (n : ℕ) (l : List Candle) : List Candle :=
  if n < l.length then (if n = 0 then l else l.drop (l.length - n)) else l

/-- Source `upsertClosedCandle(state, candle)` (src/src/binance.js lines 310-322),
parametrised by the ring bound `n` (= `HISTORY_CANDLES`). -/
def upsertClosedCandle (n : ℕ) (candles : List Candle) (candle : Candle) : List Candle :=
  ringTrunc n (ringAppend candles candle)

/-- Source `pruneAggTrades(state, nowTs)` (src/src/binance.js lines 324-330):
shift entries from the front while older than the lookback window. -/
def pruneAggTrades (aggTrades : List AggTrade) (nowTs : ℚ) : List AggTrade :=
  let keepFrom := nowTs - FLOW_LOOKBACK_MS
  aggTrades.dropWhile fun t => decide (t.ts < keepFrom)

/-- A kline payload `data.k` (the `Number(...)`-coerced numeric fields are
embedded as finite rationals). -/
structure RawKline where
  x : Bool
  o : ℚ
  h : ℚ
  l : ℚ
  c : ℚ
  v : ℚ
  T : ℚ
  t : ℚ
deriving DecidableEq, Repr

/-- The embedded `data` object of a stream payload, tagged by the `e`
discriminator the decoder dispatches on.  A trade payload carries the
venue `m` flag (isBuyerMaker) next to price/qty/time. -/
inductive RawStreamData
  | tradeData (s : Option String) (p : Option ℚ) (q : Option ℚ) (T : Option ℚ) (m : Option Bool)
  | markData (s : Option String) (p : Option ℚ) (E : Option ℚ)
  | klineData (s : Option String) (k : Option RawKline)
  | otherData
deriving DecidableEq, Repr

/-- A normalized `MarketEvent` as produced by `normalizeStreamEvent`. -/
inductive NormalizedEvent
  | trade (marketSymbol : String) (price : Option ℚ) (qty : Option ℚ) (ts : Option ℚ)
      (isBuyerMaker : Option Bool)
  | mark (marketSymbol : String) (price : Option ℚ) (ts : Option ℚ)
  | kline (marketSymbol : String) (isClosed : Bool) (openP high low close volume : ℚ)
      (closeTime openTime : ℚ)
deriving DecidableEq, Repr

/-- The JS `a || b` fallback over strings: the empty string is falsy. -/
def jsStringOr (a : Option String) (b : String) : String :=
  match a with
  | some s => if s = "" then b else s
  | none => b

/-- JS `String.prototype.toLowerCase` restricted to the basic-latin
symbols the feed uses, as a structural map over the character list. -/
def jsToLower (s : String) : String :=
  String.mk (s.data.map Char.toLower)

/-- JS `stream.split('@')[0]`: the prefix before the first `@`. -/
def jsStreamHead (s : String) : String :=
  String.mk (s.data.takeWhile fun c => c ≠ '@')

/-- Source `normalizeStreamEvent(payload)` (src/src/binance.js lines 87-132).
The envelope unwrapping (`payload?.data ?? payload`) is embedded by
passing the optional `stream` name and the `data` object separately.
The trade branch (lines 94-103) builds the event from `p`, `q`, `T`
only: the payload `m` flag (`isBuyerMaker`) is never copied onto the
event, so the decoded trade event carries `none` for it. -/
def normalizeStreamEvent (stream : Option String) (data : RawStreamData) :
    Option NormalizedEvent :=
  let streamMarketSymbol := jsStreamHead (stream.getD "")
  match data with
  | RawStreamData.tradeData s p q T _m =>
    some (NormalizedEvent.trade (jsToLower (jsStringOr s streamMarketSymbol)) p q T none)
  | RawStreamData.markData s p E =>
    some (NormalizedEvent.mark (jsToLower (jsStringOr s streamMarketSymbol)) p E)
  | RawStreamData.klineData s k =>
    match k with
    | none => none
    | some k =>
      some (NormalizedEvent.kline (jsToLower (jsStringOr s streamMarketSymbol))
        k.x k.o k.h k.l k.c k.v k.T k.t)
  | RawStreamData.otherData => none

/-- Source `applyStreamEvent(event)` (src/src/binance.js lines 357-404) applied
to the state of the symbol the event's market symbol resolves to (the
`symbolByMarket` dispatch); `now` is the wall clock stamped into
`lastStreamAt`.  The trade branch reads `event.isBuyerMaker`, which is
`undefined` (`none`) for every decoded event, and appends side `'sell'`
only when that field is truthy. -/
def applyStreamEvent (state : SymbolState) (event : NormalizedEvent) (now : ℚ) :
    SymbolState :=
  let state := { state with lastStreamAt := some now, error := none }
  match event with
  | NormalizedEvent.trade _ price qty ts isBuyerMaker =>
    let state :=
      { state with
          tradePrice := price.orElse fun _ => state.tradePrice
          tradeQty := qty.orElse fun _ => state.tradeQty
          tradeTs := ts.orElse fun _ => state.tradeTs }
    match qty, ts with
    | some q, some t =>
      if 0 < q then
        let side := match isBuyerMaker with
          | some true => FlowSide.sell
          | _ => FlowSide.buy
        let aggTrades := state.aggTrades ++ [{ ts := t, qty := q, side := side }]
        { state with aggTrades := pruneAggTrades aggTrades t }
      else state
    | _, _ => state
  | NormalizedEvent.mark _ price ts =>
    { state with
        markPrice := price.orElse fun _ => state.markPrice
        markTs := ts.orElse fun _ => state.markTs }
  | NormalizedEvent.kline _ isClosed openP high low close volume closeTime openTime =>
    let state :=
      { state with
          lastVolume5m := some volume
          nextCandleCloseTs := some (if isClosed then closeTime + FIVE_MINUTES_MS else closeTime) }
    if isClosed then
      { state with
          candles := upsertClosedCandle HISTORY_CANDLES state.candles
            { openTime := openTime, openP := openP, high := high, low := low,
              close := close, volume := volume, closeTime := closeTime } }
    else state

/-- Source `syncDecisionPlan(symbol, state, analysis, livePrice, now)`
(src/src/binance.js lines 438-483).  `cycleId` is the
`getCurrentCycleId(state)` value (`none` when not finite); the stored
previous plan comes in and the stored successor plan goes out. -/
def syncDecisionPlan (cycleId : Option ℚ) (prevPlan : Option DecisionPlan)
    (analysis : DecisionAnalysis) (livePrice : Option ℚ) (now : ℚ) :
    Option DecisionPlan :=
  match cycleId with
  | none => none
  | some cid =>
    let canBuild :=
      (analysis.status == PlanStatus.SETUP || analysis.status == PlanStatus.SIDEWAYS) &&
        isValidPrice livePrice && isValidPrice analysis.longAbove &&
        isValidPrice analysis.shortBelow
    let freshPlan : DecisionPlan :=
      { cycleId := cid
        status := analysis.status
        reason := analysis.reason
        triggerPct := analysis.triggerPct
        flowImbalance := analysis.flowImbalance
        flowSamples := analysis.flowSamples
        basePrice := livePrice
        longAbove := analysis.longAbove
        shortBelow := analysis.shortBelow
        createdAt := now
        hasTriggered := false }
    match prevPlan with
    | none => if canBuild then some freshPlan else none
    | some prevPlan =>
      if prevPlan.cycleId ≠ cid then (if canBuild then some freshPlan else none)
      else if prevPlan.status ≠ PlanStatus.SETUP ∧ analysis.status = PlanStatus.SETUP ∧ canBuild then
        some
          { prevPlan with
              status := analysis.status
              reason := analysis.reason
              triggerPct := analysis.triggerPct
              flowImbalance := analysis.flowImbalance
              flowSamples := analysis.flowSamples
              basePrice := livePrice
              longAbove := analysis.longAbove
              shortBelow := analysis.shortBelow }
      else some prevPlan

/-! ## Live trader adapter (src/src/liveTrader.js) -/

/-- Outcome of one `setLeverage` REST attempt: a parsed success body with
its optional `leverage` echo, or a request failure with the optional
numeric code extracted by `parseBinanceErrorCode`. -/
inductive LevResult
  | ok (leverage : Option ℚ)
  | err (code : Option ℤ)
deriving DecidableEq, Repr

/-- Order-preserving deduplicating append used by the candidate loop
(src/src/liveTrader.js lines 154-157). -/
def dedupAppend (out : List ℤ) (v : ℤ) : List ℤ :=
  if v ∈ out then out else out ++ [v]

/-- Source `getLeverageCandidates(symbolUpper)` (src/src/liveTrader.js lines
148-160): the seed list `[target, 20, 15, 12, 10, 8, 5, 3, 2, 1]`, each
seed bounded into `[1, cap]` where the cap is the bracket maximum bounded
into `[1, 20]`, deduplicated keeping first occurrences.  `bracketMax` is
the optional per-symbol bracket entry; `leverage` is the configured
target (already an integer bounded by the constructor). -/
def getLeverageCandidates (bracketMax : Option ℚ) (leverage : ℤ) : List ℤ :=
  let cap := min 20 (max 1 (jsFloor (toNumber bracketMax 20)))
  let target := min cap leverage
  let seeds : List ℤ := [target, 20, 15, 12, 10, 8, 5, 3, 2, 1]
  seeds.foldl (fun out seed => dedupAppend out (min cap (max 1 seed))) []

/-- Source `configureLeverage(symbolUpper)` (src/src/liveTrader.js lines
169-191) over the candidate list, with the venue modelled by `respond`:
the first successful attempt records the bounded floor of the echoed
leverage (defaulting to the candidate); a failure whose parsed code is
not -4028 breaks the loop; exhaustion or a break records the fallback 1.
The returned value is the leverage recorded into
`effectiveLeverageBySymbol`. -/
def configureLeverage (respond : ℤ → LevResult) : List ℤ → ℤ
  | [] => 1
  | c :: rest =>
    match respond c with
    | LevResult.ok lv => min 20 (max 1 (jsFloor (toNumber lv (c : ℚ))))
    | LevResult.err code => if code = some (-4028) then configureLeverage respond rest else 1

/-- One row of the venue income ledger as read by `syncIncome`
(src/src/liveTrader.js lines 394-407); `income` is the numeric value of
the raw income field that is both accumulated and part of the dedupe
key. -/
structure IncomeRow where
  symbol : String
  tranId : Option ℤ
  incomeType : Option String
  time : Option ℚ
  income : Option ℚ
deriving DecidableEq, Repr

/-- The composite dedupe key
`tranId : symbol : incomeType : ts : income` (src/src/liveTrader.js line
402), with the `?? 'na' / 'NA' / '0'` fallbacks embedded by keeping the
optional components. -/
structure IncomeKey where
  tranId : Option ℤ
  symbol : String
  incomeType : Option String
  ts : ℚ
  income : Option ℚ
deriving DecidableEq, Repr

/-- Per-symbol `IncomeStats` accumulators (src/src/liveTrader.js lines
409-417). -/
structure IncomeStats where
  realizedPnlUsd : ℚ
  commissionUsd : ℚ
  fundingUsd : ℚ
  netUsd : ℚ
  events : ℕ
deriving DecidableEq, Repr

/-- The zero accumulator a fresh symbol starts from. -/
def emptyIncomeStats : IncomeStats :=
  { realizedPnlUsd := 0, commissionUsd := 0, fundingUsd := 0, netUsd := 0, events := 0 }

/-- The trader state mutated by `syncIncome`: the seen-key set, the
per-symbol stats map (total with zero default, mirroring
`incomeStats.get(symbol) ?? zeros`), and the income cursor. -/
structure IncomeSyncState where
  seen : List IncomeKey
  stats : String → IncomeStats
  cursor : ℚ

/-- The dedupe key computed for a row inside the `syncIncome` loop. -/
def incomeRowKey (row : IncomeRow) : IncomeKey :=
  { tranId := row.tranId
    symbol := row.symbol.toUpper
    incomeType := row.incomeType
    ts := toNumber row.time 0
    income := row.income }

/-- One iteration of the `syncIncome` row loop (src/src/liveTrader.js
lines 394-427), threading the trader state and the running `maxTs`:
skip rows without a symbol or outside the watched set, advance `maxTs`,
then either skip an already-seen key or record it and accumulate. -/
def applyIncomeRow (symbolsSet : List String) (acc : IncomeSyncState × ℚ)
    (row : IncomeRow) : IncomeSyncState × ℚ :=
  let st := acc.1
  let maxTs := acc.2
  let symbol := row.symbol.toUpper
  if symbol = "" then acc
  else if symbolsSet ≠ [] ∧ symbol ∉ symbolsSet then acc
  else
    let ts := toNumber row.time 0
    let maxTs1 := if maxTs < ts then ts else maxTs
    if incomeRowKey row ∈ st.seen then (st, maxTs1)
    else
      let incomeType := row.incomeType.getD ""
      let incomeUsd := toNumber row.income 0
      let stats := st.stats symbol
      let stats1 : IncomeStats :=
        { realizedPnlUsd :=
            if incomeType = "REALIZED_PNL" then stats.realizedPnlUsd + incomeUsd
            else stats.realizedPnlUsd
          commissionUsd :=
            if incomeType = "COMMISSION" then stats.commissionUsd + incomeUsd
            else stats.commissionUsd
          fundingUsd :=
            if incomeType = "FUNDING_FEE" then stats.fundingUsd + incomeUsd
            else stats.fundingUsd
          netUsd := stats.netUsd + incomeUsd
          events := stats.events + 1 }
      ({ st with
          seen := incomeRowKey row :: st.seen
          stats := fun s => if s = symbol then stats1 else st.stats s },
        maxTs1)

/-- Source `syncIncome(marketSymbols)` applied to a fetched row list
(src/src/liveTrader.js lines 383-430): fold the row loop from the current
cursor and advance the cursor to `maxTs + 1`. -/
def syncIncome (marketSymbols : List String) (rows : List IncomeRow)
    (st : IncomeSyncState) : IncomeSyncState :=
  let symbolsSet := marketSymbols.map String.toUpper
  let out := rows.foldl (applyIncomeRow symbolsSet) (st, st.cursor)
  { out.1 with cursor := out.2 + 1 }

/-- The failing trade payload for the buyer-maker claim: a venue trade
frame whose `m` (isBuyerMaker) flag is set, with positive quantity and a
finite timestamp so the aggregated-trade window append fires. -/
def buyerMakerPayload : RawStreamData :=
  RawStreamData.tradeData (some "1000pepeusdt") (some 5) (some 2) (some 1000) (some true)

/-- A concrete open long trade used as witness input: margin 10,
leverage 20, entry 100, quantity 2, fee rate 0.05, stop-loss 10% ROI. -/
def c3Trade : ActiveTrade :=
  { side := TradeSide.long, entryPrice := 100, entryTime := 0, marginUsd := 10,
    leverage := 20, positionValueUsd := 200, quantity := 2, stopLossRoiPct := 10,
    trailActivateRoiPct := 11, trailDdRoiPct := 2, minNetProfitUsd := 1/4,
    feeRatePct := 1/20, entryFeeUsd := 1/10, estimatedExitFeeUsd := 1/10,
    trailingArmed := false, peakNetPnlUsd := -(1/5), peakRoiPct := -2,
    meta := ⟨300000, some 101, some 99, some (1/2)⟩ }

/-- A simulator state holding `c3Trade`. -/
def c3Sim : SymbolSimState :=
  { activeTrade := some c3Trade, history := [], stats := ⟨0, 0, 0, 0⟩, lastClosed := none }

/-- A concrete income ledger row used as witness input. -/
def c9Row : IncomeRow :=
  { symbol := "pepe", tranId := some 7, incomeType := some "COMMISSION",
    time := some 5, income := some (1/2) }

/-- A trader state that has already seen the key of `c9Row`. -/
def c9State : IncomeSyncState :=
  { seen := [incomeRowKey c9Row], stats := fun _ => emptyIncomeStats, cursor := 0 }

/-! ## Helper lemmas -/

theorem createTrade_side (side : TradeSide) (ep : Option ℚ) (now : ℚ)
    (config : SimDefaults) (meta : TradeMeta) (t : ActiveTrade)
    (h : createTrade side ep now config meta = some t) : t.side = side := by
  unfold createTrade at h
  repeat' split at h
  all_goals simp_all
  rw [← h.2]

theorem le_jsClamp (v lo hi : ℚ) : lo ≤ jsClamp v lo hi :=
  le_max_left _ _

theorem jsClamp_le (v lo hi : ℚ) (h : lo ≤ hi) : jsClamp v lo hi ≤ hi :=
  max_le h (min_le_left _ _)

theorem le_triggerPctOf (sqrtQ : ℚ → ℚ) (candles : List Candle) :
    2/25 ≤ triggerPctOf sqrtQ candles :=
  le_jsClamp _ _ _

theorem triggerPctOf_le (sqrtQ : ℚ → ℚ) (candles : List Candle) :
    triggerPctOf sqrtQ candles ≤ 9/5 :=
  jsClamp_le _ _ _ (by norm_num)

/-! ## Claim theorems -/

/-- C6: for every `min ≤ max` risk-parameter pair, the trigger
interpolation is `min + (max − min) · clamp((t − 0.08)/(1.8 − 0.08), 0, 1)`;
`t = 0.08` yields exactly `min`, `t = 1.8` yields exactly `max`, and any
trigger outside `[0.08, 1.8]` is clamped to the nearest endpoint. -/
theorem interpolateByTrigger_endpoints (lo hi : ℚ) (hlohi : lo ≤ hi) (t : ℚ) :
    interpolateByTrigger lo hi (some t)
        = lo + (hi - lo) * jsClamp ((t - 2/25) / (9/5 - 2/25)) 0 1
      ∧ interpolateByTrigger lo hi (some (2/25)) = lo
      ∧ interpolateByTrigger lo hi (some (9/5)) = hi
      ∧ (t ≤ 2/25 → interpolateByTrigger lo hi (some t) = lo)
      ∧ (9/5 ≤ t → interpolateByTrigger lo hi (some t) = hi) := by
  refine ⟨rfl, ?_, ?_, ?_, ?_⟩
  · show lo + (hi - lo) * jsClamp ((2/25 - 2/25) / (9/5 - 2/25)) 0 1 = lo
    norm_num [jsClamp]
  · show lo + (hi - lo) * jsClamp ((9/5 - 2/25) / (9/5 - 2/25)) 0 1 = hi
    norm_num [jsClamp]
  · intro ht
    show lo + (hi - lo) * jsClamp ((t - 2/25) / (9/5 - 2/25)) 0 1 = lo
    have hq : (t - 2/25) / (9/5 - 2/25) ≤ 0 :=
      div_nonpos_of_nonpos_of_nonneg (sub_nonpos.2 ht) (by norm_num)
    rw [jsClamp, min_eq_right (hq.trans (by norm_num)), max_eq_left hq]
    ring
  · intro ht
    show lo + (hi - lo) * jsClamp ((t - 2/25) / (9/5 - 2/25)) 0 1 = hi
    have hq : (1 : ℚ) ≤ (t - 2/25) / (9/5 - 2/25) := by
      rw [le_div_iff₀ (by norm_num : (0:ℚ) < 9/5 - 2/25)]
      linarith
    rw [jsClamp, min_eq_left hq, max_eq_right (by norm_num : (0:ℚ) ≤ 1)]
    ring

/-- Witness for C6 at `min = 2`, `max = 5`, trigger `3`. -/
theorem interpolateByTrigger_endpoints_witness :
    (2 : ℚ) ≤ 5 ∧
      (interpolateByTrigger 2 5 (some 3)
          = 2 + (5 - 2) * jsClamp ((3 - 2/25) / (9/5 - 2/25)) 0 1
        ∧ interpolateByTrigger 2 5 (some (2/25)) = 2
        ∧ interpolateByTrigger 2 5 (some (9/5)) = 5
        ∧ ((3:ℚ) ≤ 2/25 → interpolateByTrigger 2 5 (some 3) = 2)
        ∧ ((9:ℚ)/5 ≤ 3 → interpolateByTrigger 2 5 (some 3) = 5)) :=
  ⟨by norm_num, interpolateByTrigger_endpoints 2 5 (by norm_num) 3⟩

set_option maxHeartbeats 1600000 in
/-- C5: whenever the analyzer's WAIT preconditions pass (a live price is
present, the ring holds at least `HISTORY_CANDLES` candles and the finite
countdown is within the decision window), the returned `triggerPct` lies
in the inclusive interval `[0.08, 2.2]` percent (the clamp in
src/src/strategy.js line 80 lands it in the subinterval `[0.08, 1.8]`). -/
theorem analyzeDecision_triggerPct_clamped (sqrtQ : ℚ → ℚ) (candles : List Candle)
    (p m : ℚ) (hlen : HISTORY_CANDLES ≤ candles.length) (hm : m ≤ DECISION_WINDOW_MS) :
    2/25 ≤ (analyzeDecision sqrtQ candles (some p) (some m)).triggerPct ∧
      (analyzeDecision sqrtQ candles (some p) (some m)).triggerPct ≤ 11/5 := by
  have h1 : ¬ (candles.length < HISTORY_CANDLES) := not_lt.mpr hlen
  have h2 : ¬ (DECISION_WINDOW_MS < m) := not_lt.mpr hm
  unfold analyzeDecision
  dsimp only
  rw [if_neg h1, if_neg h2]
  split
  · exact ⟨le_triggerPctOf _ _, (triggerPctOf_le _ _).trans (by norm_num)⟩
  · exact ⟨le_triggerPctOf _ _, (triggerPctOf_le _ _).trans (by norm_num)⟩

/-- Witness for C5 on a concrete full ring of 72 flat candles. -/
theorem analyzeDecision_triggerPct_clamped_witness :
    2/25 ≤ (analyzeDecision (fun _ => 0)
        (List.replicate 72 ⟨0, 1, 1, 1, 1, 1, 300000⟩) (some 1) (some 0)).triggerPct ∧
      (analyzeDecision (fun _ => 0)
        (List.replicate 72 ⟨0, 1, 1, 1, 1, 1, 300000⟩) (some 1) (some 0)).triggerPct ≤ 11/5 :=
  analyzeDecision_triggerPct_clamped (fun _ => 0) _ 1 0
    (by simp [HISTORY_CANDLES]) (by norm_num [DECISION_WINDOW_MS])

theorem syncDecisionPlan_setup_step (p : DecisionPlan) (hs : p.status = PlanStatus.SETUP)
    (analysis : DecisionAnalysis) (lp : Option ℚ) (now : ℚ) :
    syncDecisionPlan (some p.cycleId) (some p) analysis lp now = some p := by
  unfold syncDecisionPlan
  simp [hs]

/-- C2: once the stored plan for a cycle has status SETUP, every later
`syncDecisionPlan` call of the same cycle returns the stored plan
unchanged, so `longAbove` and `shortBelow` stay constant until the cycle
id changes. -/
theorem syncDecisionPlan_setup_thresholds_frozen (p : DecisionPlan)
    (hs : p.status = PlanStatus.SETUP)
    (calls : List (DecisionAnalysis × Option ℚ × ℚ)) :
    calls.foldl
        (fun plan call => syncDecisionPlan (some p.cycleId) plan call.1 call.2.1 call.2.2)
        (some p) = some p
      ∧ (calls.foldl
          (fun plan call => syncDecisionPlan (some p.cycleId) plan call.1 call.2.1 call.2.2)
          (some p)).map DecisionPlan.longAbove = some p.longAbove
      ∧ (calls.foldl
          (fun plan call => syncDecisionPlan (some p.cycleId) plan call.1 call.2.1 call.2.2)
          (some p)).map DecisionPlan.shortBelow = some p.shortBelow := by
  have h : calls.foldl
      (fun plan call => syncDecisionPlan (some p.cycleId) plan call.1 call.2.1 call.2.2)
      (some p) = some p := by
    induction calls with
    | nil => rfl
    | cons c cs ih =>
      rw [List.foldl_cons, syncDecisionPlan_setup_step p hs c.1 c.2.1 c.2.2]
      exact ih
  exact ⟨h, by rw [h]; rfl, by rw [h]; rfl⟩

/-- Witness for C2: a SETUP plan survives a call whose analysis would
move the thresholds. -/
theorem syncDecisionPlan_setup_thresholds_frozen_witness :
    (let p : DecisionPlan :=
      { cycleId := 300000, status := PlanStatus.SETUP, reason := "s", triggerPct := 1/2,
        flowImbalance := none, flowSamples := none, basePrice := some 100,
        longAbove := some 101, shortBelow := some 99, createdAt := 0, hasTriggered := false }
     let a : DecisionAnalysis :=
      ⟨PlanStatus.SETUP, "t", some 200, some 150, 1, none, none⟩
     [(a, some (175 : ℚ), (5 : ℚ))].foldl
        (fun plan call => syncDecisionPlan (some p.cycleId) plan call.1 call.2.1 call.2.2)
        (some p) = some p) := by
  exact (syncDecisionPlan_setup_thresholds_frozen _ rfl _).1

/-- C1 (code evaluation at the failing input): a decoded venue trade
payload with `isBuyerMaker = true` produces a normalized event whose
`isBuyerMaker` slot is `undefined` (the decoder in src/src/binance.js
lines 94-103 copies only `p`, `q`, `T`), so `applyStreamEvent` appends
the aggregated trade with side `buy` although the claim demands `sell`. -/
theorem applyStreamEvent_buyerMaker_flag_lost :
    normalizeStreamEvent none buyerMakerPayload
        = some (NormalizedEvent.trade "1000pepeusdt" (some 5) (some 2) (some 1000) none)
      ∧ (applyStreamEvent initialSymbolState
            (NormalizedEvent.trade "1000pepeusdt" (some 5) (some 2) (some 1000) none) 1000).aggTrades
        = [{ ts := 1000, qty := 2, side := FlowSide.buy }] := by
  refine ⟨by decide, ?_⟩
  norm_num [applyStreamEvent, pruneAggTrades, initialSymbolState, FLOW_LOOKBACK_MS,
    List.dropWhile, Option.orElse]

/-- C10: `maybeOpenTrade` is pure on rejection — whenever it returns
null, both the simulator state and the decision plan are unchanged (in
particular `hasTriggered` is untouched); a trade is stored and the plan
marked triggered only when a trade is actually created. -/
theorem maybeOpenTrade_null_pure (simState : SymbolSimState)
    (decisionPlan : Option DecisionPlan) (livePrice : Option ℚ) (now : ℚ)
    (simConfig : SimConfigIn) :
    ((maybeOpenTrade simState decisionPlan livePrice now simConfig).1 = none →
        (maybeOpenTrade simState decisionPlan livePrice now simConfig).2.1 = simState
          ∧ (maybeOpenTrade simState decisionPlan livePrice now simConfig).2.2 = decisionPlan)
      ∧ (∀ t, (maybeOpenTrade simState decisionPlan livePrice now simConfig).1 = some t →
          (maybeOpenTrade simState decisionPlan livePrice now simConfig).2.1
              = { simState with activeTrade := some t }
            ∧ (maybeOpenTrade simState decisionPlan livePrice now simConfig).2.2
              = decisionPlan.map fun plan => { plan with hasTriggered := true }) := by
  unfold maybeOpenTrade
  repeat' split
  all_goals refine ⟨fun h => ?_, fun t ht => ?_⟩
  all_goals simp_all

/-- Witness for C10: a rejected breakout (price between the triggers)
leaves state and plan untouched. -/
theorem maybeOpenTrade_null_pure_witness :
    (let plan : DecisionPlan :=
      { cycleId := 300000, status := PlanStatus.SETUP, reason := "s", triggerPct := 1/2,
        flowImbalance := none, flowSamples := none, basePrice := some 100,
        longAbove := some 101, shortBelow := some 99, createdAt := 0, hasTriggered := false }
     let cfg : SimConfigIn :=
      ⟨some 10, some 20, some 8, some 15, some 10, some 20, some 2, some 4, some (3/100), some (1/20)⟩
     (maybeOpenTrade createSymbolSimState (some plan) (some 100) 0 cfg).2.1
        = createSymbolSimState
      ∧ (maybeOpenTrade createSymbolSimState (some plan) (some 100) 0 cfg).2.2 = some plan) := by
  exact (maybeOpenTrade_null_pure createSymbolSimState _ (some 100) 0 _).1 (by decide)

theorem maybeOpenTrade_gate_not_blocked (simState : SymbolSimState) (plan : DecisionPlan)
    (livePrice : Option ℚ) (now : ℚ) (simConfig : SimConfigIn) (t : ActiveTrade)
    (ht : (maybeOpenTrade simState (some plan) livePrice now simConfig).1 = some t) :
    flowGateBlocked t.side plan.flowImbalance plan.flowSamples = false := by
  unfold maybeOpenTrade at ht
  repeat' split at ht
  all_goals
    first
      | (simp_all; done)
      | (rename_i heq
         have hs := createTrade_side _ _ _ _ _ _ heq
         simp_all)

/-- C4: for every SETUP plan with finite flow metrics and at least 20
samples, `maybeOpenTrade` opens no long trade when the flow imbalance is
below -0.05 and no short trade when it is above +0.05, whatever the live
price does. -/
theorem maybeOpenTrade_flow_veto (simState : SymbolSimState) (plan : DecisionPlan)
    (livePrice : Option ℚ) (now : ℚ) (simConfig : SimConfigIn) (imb smp : ℚ)
    (hImb : plan.flowImbalance = some imb) (hSmp : plan.flowSamples = some smp)
    (hn : 20 ≤ smp) :
    (imb < -(1/20) →
        ∀ t, (maybeOpenTrade simState (some plan) livePrice now simConfig).1 = some t →
          t.side ≠ TradeSide.long)
      ∧ ((1/20) < imb →
        ∀ t, (maybeOpenTrade simState (some plan) livePrice now simConfig).1 = some t →
          t.side ≠ TradeSide.short) := by
  constructor
  · intro hlt t ht hside
    have hg := maybeOpenTrade_gate_not_blocked simState plan livePrice now simConfig t ht
    rw [hside, hImb, hSmp] at hg
    simp [flowGateBlocked, hn] at hg
    linarith
  · intro hgt t ht hside
    have hg := maybeOpenTrade_gate_not_blocked simState plan livePrice now simConfig t ht
    rw [hside, hImb, hSmp] at hg
    simp [flowGateBlocked, hn] at hg
    linarith

/-- Witness for C4 (scenario S4): imbalance -0.10 with 25 samples and a
price crossing `longAbove` opens nothing. -/
theorem maybeOpenTrade_flow_veto_witness :
    (let plan : DecisionPlan :=
      { cycleId := 300000, status := PlanStatus.SETUP, reason := "s", triggerPct := 1/2,
        flowImbalance := some (-(1/10)), flowSamples := some 25, basePrice := some 100,
        longAbove := some 101, shortBelow := some 99, createdAt := 0, hasTriggered := false }
     let cfg : SimConfigIn :=
      ⟨some 10, some 20, some 8, some 15, some 10, some 20, some 2, some 4, some (3/100), some (1/20)⟩
     (-(1/10) : ℚ) < -(1/20)
       ∧ ∀ t, (maybeOpenTrade createSymbolSimState (some plan) (some 102) 0 cfg).1 = some t →
           t.side ≠ TradeSide.long) := by
  refine ⟨by norm_num, ?_⟩
  exact (maybeOpenTrade_flow_veto createSymbolSimState _ (some 102) 0 _ (-(1/10)) 25
    rfl rfl (by norm_num)).1 (by norm_num)

/-- C3: for an open trade and a finite positive live price,
`updateOpenTrade` computes the net P&L as the gross P&L minus the entry
fee plus the exit-notional fee `|quantity * livePrice| * feeRatePct / 100`,
and whenever the resulting ROI percent is at or below the negated
stop-loss ROI it closes the trade with reason `SL_ROI` before any peak or
trailing update (the closed record still carries the untouched trade). -/
theorem updateOpenTrade_stopLoss_roi (sim : SymbolSimState) (trade : ActiveTrade)
    (price now : ℚ) (hT : sim.activeTrade = some trade) (hp : 0 < price)
    (hm : 0 < trade.marginUsd)
    (hsl : (calculateNetPnl trade price).netPnlUsd / trade.marginUsd * 100
      ≤ -trade.stopLossRoiPct) :
    (calculateNetPnl trade price).netPnlUsd
        = (calculateNetPnl trade price).grossPnlUsd
            - (trade.entryFeeUsd + |trade.quantity * price| * trade.feeRatePct / 100)
      ∧ ∃ closed : ClosedTrade,
          (updateOpenTrade sim (some price) now).1 = some closed
            ∧ closed.exitReason = ExitReason.SL_ROI
            ∧ closed.pnlUsd = (calculateNetPnl trade price).netPnlUsd
            ∧ closed.trade = trade
            ∧ ((updateOpenTrade sim (some price) now).2).activeTrade = none := by
  have hroi : calculateRoiPct (calculateNetPnl trade price).netPnlUsd trade.marginUsd
      ≤ -trade.stopLossRoiPct := by
    rw [calculateRoiPct, if_neg (ne_of_gt hm)]
    exact hsl
  have h1 : updateOpenTrade sim (some price) now = closeTrade sim price now ExitReason.SL_ROI := by
    unfold updateOpenTrade
    rw [hT]
    dsimp only
    rw [if_pos hp, if_pos hroi]
  refine ⟨by simp [calculateNetPnl], ?_⟩
  rw [h1]
  unfold closeTrade
  rw [hT]
  exact ⟨_, rfl, rfl, rfl, rfl, rfl⟩

/-- Witness for C3: the concrete long trade stopped out at price 90. -/
theorem updateOpenTrade_stopLoss_roi_witness :
    (calculateNetPnl c3Trade 90).netPnlUsd
        = (calculateNetPnl c3Trade 90).grossPnlUsd
            - (c3Trade.entryFeeUsd + |c3Trade.quantity * 90| * c3Trade.feeRatePct / 100)
      ∧ ∃ closed : ClosedTrade,
          (updateOpenTrade c3Sim (some 90) 5).1 = some closed
            ∧ closed.exitReason = ExitReason.SL_ROI
            ∧ closed.pnlUsd = (calculateNetPnl c3Trade 90).netPnlUsd
            ∧ closed.trade = c3Trade
            ∧ ((updateOpenTrade c3Sim (some 90) 5).2).activeTrade = none :=
  updateOpenTrade_stopLoss_roi c3Sim c3Trade 90 5 rfl (by norm_num)
    (by norm_num [c3Trade])
    (by norm_num [calculateNetPnl, calculateGrossPnl, c3Trade])

theorem ringTrunc_length_le (n : ℕ) (hn : n ≠ 0) (l : List Candle) :
    (ringTrunc n l).length ≤ n := by
  unfold ringTrunc
  split
  · simp only [List.length_drop]
    omega
  · omega

theorem ringTrunc_chain {R : Candle → Candle → Prop} (n : ℕ) (l : List Candle)
    (h : List.Chain' R l) : List.Chain' R (ringTrunc n l) := by
  unfold ringTrunc
  split
  · split
    · exact h
    · exact h.suffix (List.drop_suffix _ _)
  · exact h

theorem ringAppend_chain (r : List Candle) (c : Candle)
    (h : List.Chain' (fun a b => a.closeTime < b.closeTime) r) :
    List.Chain' (fun a b => a.closeTime < b.closeTime) (ringAppend r c) := by
  unfold ringAppend
  cases hlast : r.getLast? with
  | none =>
    rw [List.getLast?_eq_none_iff.mp hlast]
    exact List.chain'_singleton c
  | some last =>
    dsimp only
    split
    · rename_i hlt
      exact List.chain'_append.2
        ⟨h, List.chain'_singleton c, by
          intro x hx y hy
          simp only [List.head?_cons, Option.mem_def, Option.some.injEq] at hy
          rw [hlast] at hx
          simp only [Option.mem_def, Option.some.injEq] at hx
          subst hx
          subst hy
          exact hlt⟩
    · split
      · rename_i hnlt heq
        have hsplit : r.dropLast ++ [last] = r := List.dropLast_append_getLast? last hlast
        have h2 : List.Chain' (fun a b => a.closeTime < b.closeTime) (r.dropLast ++ [last]) := by
          rw [hsplit]; exact h
        obtain ⟨hd, _, hb⟩ := List.chain'_append.1 h2
        exact List.chain'_append.2
          ⟨hd, List.chain'_singleton c, by
            intro x hx y hy
            simp only [List.head?_cons, Option.mem_def, Option.some.injEq] at hy
            subst hy
            have hx2 := hb x hx last (by simp)
            rw [heq]
            exact hx2⟩
      · exact h

theorem upsertClosedCandle_inv_step (n : ℕ) (hn : n ≠ 0) (r : List Candle) (c : Candle)
    (h : List.Chain' (fun a b => a.closeTime < b.closeTime) r) :
    (upsertClosedCandle n r c).length ≤ n ∧
      List.Chain' (fun a b => a.closeTime < b.closeTime) (upsertClosedCandle n r c) :=
  ⟨ringTrunc_length_le n hn _, ringTrunc_chain n _ (ringAppend_chain r c h)⟩

theorem upsertClosedCandle_fold_inv (n : ℕ) (hn : n ≠ 0) (events : List Candle) :
    ∀ r : List Candle, List.Chain' (fun a b => a.closeTime < b.closeTime) r → r.length ≤ n →
      (events.foldl (upsertClosedCandle n) r).length ≤ n ∧
        List.Chain' (fun a b => a.closeTime < b.closeTime)
          (events.foldl (upsertClosedCandle n) r) := by
  induction events with
  | nil => exact fun r h2 h1 => ⟨h1, h2⟩
  | cons e es ih =>
    intro r h2 h1
    have step := upsertClosedCandle_inv_step n hn r e h2
    exact ih _ step.2 step.1

/-- C7: folding any sequence of closed-kline candles through the ring
upsert keeps the ring at no more than `n` candles with strictly
increasing close times; a candle tying the last entry's close time
replaces that entry and a candle with a smaller close time is dropped. -/
theorem upsertClosedCandle_ring_invariant (n : ℕ) (hn : 1 ≤ n) :
    (∀ events : List Candle,
        (events.foldl (upsertClosedCandle n) []).length ≤ n
          ∧ List.Chain' (fun a b => a.closeTime < b.closeTime)
              (events.foldl (upsertClosedCandle n) []))
      ∧ (∀ (r : List Candle) (c last : Candle), r.length ≤ n → r.getLast? = some last →
          (c.closeTime = last.closeTime →
            upsertClosedCandle n r c = r.dropLast ++ [c])
            ∧ (c.closeTime < last.closeTime → upsertClosedCandle n r c = r)) := by
  constructor
  · intro events
    exact upsertClosedCandle_fold_inv n (by omega) events []
      List.chain'_nil (by simp)
  · intro r c last hlen hlast
    have hne : r ≠ [] := by
      intro hr
      rw [hr] at hlast
      simp at hlast
    constructor
    · intro heq
      unfold upsertClosedCandle ringAppend
      rw [hlast]
      dsimp only
      rw [if_neg (by rw [heq]; exact lt_irrefl _), if_pos heq]
      have hpos := List.length_pos.mpr hne
      have hlen2 : (r.dropLast ++ [c]).length = r.length := by
        simp only [List.length_append, List.length_dropLast, List.length_cons,
          List.length_nil]
        omega
      unfold ringTrunc
      rw [if_neg (by rw [hlen2]; omega)]
    · intro hlt
      unfold upsertClosedCandle ringAppend
      rw [hlast]
      dsimp only
      rw [if_neg (asymm hlt), if_neg (ne_of_lt hlt)]
      unfold ringTrunc
      rw [if_neg (by omega)]

/-- Witness for C7: a bound-2 ring fed three increasing candles stays at
two strictly increasing entries. -/
theorem upsertClosedCandle_ring_invariant_witness :
    (([⟨0,0,0,0,0,0,1⟩, ⟨0,0,0,0,0,0,2⟩, ⟨0,0,0,0,0,0,3⟩] : List Candle).foldl
        (upsertClosedCandle 2) []).length ≤ 2
      ∧ List.Chain' (fun a b : Candle => a.closeTime < b.closeTime)
          (([⟨0,0,0,0,0,0,1⟩, ⟨0,0,0,0,0,0,2⟩, ⟨0,0,0,0,0,0,3⟩] : List Candle).foldl
            (upsertClosedCandle 2) []) :=
  (upsertClosedCandle_ring_invariant 2 (by norm_num)).1 _

theorem foldl_dedupAppend_bounded (cap : ℤ) (hcap : 1 ≤ cap) (seeds : List ℤ) :
    ∀ acc : List ℤ, (∀ x ∈ acc, 1 ≤ x ∧ x ≤ cap) →
      ∀ x ∈ seeds.foldl (fun out seed => dedupAppend out (min cap (max 1 seed))) acc,
        1 ≤ x ∧ x ≤ cap := by
  induction seeds with
  | nil => exact fun acc h => h
  | cons sd sds ih =>
    intro acc hacc
    apply ih
    intro x hx
    unfold dedupAppend at hx
    dsimp only at hx
    split at hx
    · exact hacc x hx
    · rcases List.mem_append.1 hx with h | h
      · exact hacc x h
      · simp only [List.mem_singleton] at h
        subst h
        exact ⟨le_min hcap (le_max_left _ _), min_le_left _ _⟩

theorem configureLeverage_skip (respond : ℤ → LevResult) (l1 : List ℤ)
    (h : ∀ x ∈ l1, respond x = LevResult.err (some (-4028))) (rest : List ℤ) :
    configureLeverage respond (l1 ++ rest) = configureLeverage respond rest := by
  induction l1 with
  | nil => rfl
  | cons a l ih =>
    rw [List.cons_append]
    have ha := h a (List.mem_cons_self a l)
    simp only [configureLeverage, ha, if_pos rfl]
    exact ih fun x hx => h x (List.mem_cons_of_mem a hx)

/-- C8: leverage negotiation walks the deduplicated candidate list (every
candidate bounded into `[1, min 20 bracketCap]`); the first successful
attempt records the bounded floor of the accepted leverage, a failure
with parsed code -4028 moves to the next candidate, any other failure
stops the walk, and 1 is recorded when no candidate succeeded. -/
theorem configureLeverage_negotiation :
    (∀ (bracketMax : Option ℚ) (leverage : ℤ),
        ∀ c ∈ getLeverageCandidates bracketMax leverage,
          1 ≤ c ∧ c ≤ min 20 (max 1 (jsFloor (toNumber bracketMax 20))))
      ∧ (∀ (respond : ℤ → LevResult) (l1 l2 : List ℤ) (c : ℤ) (lv : Option ℚ),
          (∀ x ∈ l1, respond x = LevResult.err (some (-4028))) →
          respond c = LevResult.ok lv →
          configureLeverage respond (l1 ++ c :: l2)
            = min 20 (max 1 (jsFloor (toNumber lv (c : ℚ)))))
      ∧ (∀ (respond : ℤ → LevResult) (l1 l2 : List ℤ) (c : ℤ) (code : Option ℤ),
          (∀ x ∈ l1, respond x = LevResult.err (some (-4028))) →
          respond c = LevResult.err code → code ≠ some (-4028) →
          configureLeverage respond (l1 ++ c :: l2) = 1)
      ∧ (∀ (respond : ℤ → LevResult) (l : List ℤ),
          (∀ x ∈ l, respond x = LevResult.err (some (-4028))) →
          configureLeverage respond l = 1) := by
  refine ⟨?_, ?_, ?_, ?_⟩
  · intro bm lev c hc
    unfold getLeverageCandidates at hc
    exact foldl_dedupAppend_bounded _ (le_min (by norm_num) (le_max_left _ _)) _ []
      (by simp) c hc
  · intro respond l1 l2 c lv h1 hc
    rw [configureLeverage_skip respond l1 h1]
    simp only [configureLeverage, hc]
  · intro respond l1 l2 c code h1 hc hcode
    rw [configureLeverage_skip respond l1 h1]
    simp only [configureLeverage, hc]
    rw [if_neg hcode]
  · intro respond l h
    have hskip := configureLeverage_skip respond l h []
    rw [List.append_nil] at hskip
    rw [hskip]
    rfl

/-- Witness for C8: bracket cap 10, one -4028 rejection at 10, then
acceptance at 8. -/
theorem configureLeverage_negotiation_witness :
    (let respond : ℤ → LevResult := fun c =>
      if c = 10 then LevResult.err (some (-4028)) else LevResult.ok (some (c : ℚ))
     configureLeverage respond ([10] ++ 8 :: [5, 3, 2, 1])
        = min 20 (max 1 (jsFloor (toNumber (some (8 : ℚ)) ((8 : ℤ) : ℚ))))) := by
  exact configureLeverage_negotiation.2.1 _ [10] [5, 3, 2, 1] 8 (some 8)
    (by intro x hx; simp only [List.mem_singleton] at hx; subst hx; rfl) (by norm_num)

theorem applyIncomeRow_seen_mono (set : List String) (acc : IncomeSyncState × ℚ)
    (row : IncomeRow) :
    ∀ k ∈ acc.1.seen, k ∈ (applyIncomeRow set acc row).1.seen := by
  intro k hk
  unfold applyIncomeRow
  dsimp only
  split
  · exact hk
  · split
    · exact hk
    · split
      · exact hk
      · exact List.mem_cons_of_mem _ hk

theorem applyIncomeRow_stats_skip (set : List String) (acc : IncomeSyncState × ℚ)
    (row : IncomeRow)
    (h : row.symbol.toUpper = "" ∨ (set ≠ [] ∧ row.symbol.toUpper ∉ set)
      ∨ incomeRowKey row ∈ acc.1.seen) :
    (applyIncomeRow set acc row).1.stats = acc.1.stats
      ∧ (applyIncomeRow set acc row).1.seen = acc.1.seen := by
  unfold applyIncomeRow
  dsimp only
  split
  · exact ⟨rfl, rfl⟩
  · split
    · exact ⟨rfl, rfl⟩
    · split
      · exact ⟨rfl, rfl⟩
      · rename_i hempty hfilter hseen
        rcases h with h | h | h
        · exact absurd h hempty
        · exact absurd h hfilter
        · exact absurd h hseen

theorem applyIncomeRow_key_in (set : List String) (acc : IncomeSyncState × ℚ)
    (row : IncomeRow)
    (hok : row.symbol.toUpper ≠ "" ∧ (set = [] ∨ row.symbol.toUpper ∈ set)) :
    incomeRowKey row ∈ (applyIncomeRow set acc row).1.seen := by
  unfold applyIncomeRow
  dsimp only
  rw [if_neg hok.1, if_neg (by rcases hok.2 with h | h <;> simp [h])]
  split
  · assumption
  · exact List.mem_cons_self _ _

theorem foldl_income_seen_mono (set : List String) (rows : List IncomeRow) :
    ∀ acc : IncomeSyncState × ℚ, ∀ k ∈ acc.1.seen,
      k ∈ (rows.foldl (applyIncomeRow set) acc).1.seen := by
  induction rows with
  | nil => exact fun acc k hk => hk
  | cons r rs ih =>
    intro acc k hk
    exact ih _ k (applyIncomeRow_seen_mono set acc r k hk)

theorem foldl_income_key_in (set : List String) (rows : List IncomeRow) :
    ∀ (acc : IncomeSyncState × ℚ), ∀ row ∈ rows,
      (row.symbol.toUpper ≠ "" ∧ (set = [] ∨ row.symbol.toUpper ∈ set)) →
      incomeRowKey row ∈ (rows.foldl (applyIncomeRow set) acc).1.seen := by
  induction rows with
  | nil =>
    intro acc row h
    exact absurd h (List.not_mem_nil row)
  | cons r rs ih =>
    intro acc row hrow hok
    rcases List.mem_cons.1 hrow with h | h
    · subst h
      exact foldl_income_seen_mono set rs _ _ (applyIncomeRow_key_in set acc row hok)
    · exact ih _ row h hok

theorem foldl_income_stats_frozen (set : List String) (rows : List IncomeRow) :
    ∀ acc : IncomeSyncState × ℚ,
      (∀ row ∈ rows, row.symbol.toUpper = "" ∨ (set ≠ [] ∧ row.symbol.toUpper ∉ set)
        ∨ incomeRowKey row ∈ acc.1.seen) →
      (rows.foldl (applyIncomeRow set) acc).1.stats = acc.1.stats := by
  induction rows with
  | nil => exact fun acc _ => rfl
  | cons r rs ih =>
    intro acc h
    have hr := h r (List.mem_cons_self r rs)
    have hskip := applyIncomeRow_stats_skip set acc r hr
    rw [List.foldl_cons]
    rw [ih _ ?_, hskip.1]
    intro row hrow
    rcases h row (List.mem_cons_of_mem r hrow) with h1 | h1 | h1
    · exact Or.inl h1
    · exact Or.inr (Or.inl h1)
    · exact Or.inr (Or.inr (by rw [hskip.2]; exact h1))

/-- C9: processing an income row whose composite key has already been
seen leaves every per-symbol `IncomeStats` accumulator unchanged, and
replaying the same row list through `syncIncome` is idempotent with
respect to the stats map. -/
theorem syncIncome_dedupe_idempotent :
    (∀ (symbolsSet : List String) (st : IncomeSyncState) (maxTs : ℚ) (row : IncomeRow),
        incomeRowKey row ∈ st.seen →
        (applyIncomeRow symbolsSet (st, maxTs) row).1.stats = st.stats)
      ∧ (∀ (marketSymbols : List String) (rows : List IncomeRow) (st : IncomeSyncState),
        (syncIncome marketSymbols rows (syncIncome marketSymbols rows st)).stats
          = (syncIncome marketSymbols rows st).stats) := by
  constructor
  · intro set st m row hk
    exact (applyIncomeRow_stats_skip set (st, m) row (Or.inr (Or.inr hk))).1
  · intro ms rows st
    unfold syncIncome
    dsimp only
    refine foldl_income_stats_frozen _ rows _ ?_
    intro row hrow
    by_cases hempty : row.symbol.toUpper = ""
    · exact Or.inl hempty
    · by_cases hfilter : (ms.map String.toUpper) ≠ []
          ∧ row.symbol.toUpper ∉ ms.map String.toUpper
      · exact Or.inr (Or.inl hfilter)
      · refine Or.inr (Or.inr ?_)
        have hok : row.symbol.toUpper ≠ ""
            ∧ ((ms.map String.toUpper) = [] ∨ row.symbol.toUpper ∈ ms.map String.toUpper) := by
          refine ⟨hempty, ?_⟩
          by_contra hcon
          push_neg at hcon
          exact hfilter ⟨hcon.1, hcon.2⟩
        exact foldl_income_key_in _ rows _ row hrow hok

/-- Witness for C9: a replayed row whose key is already recorded leaves
the stats map untouched. -/
theorem syncIncome_dedupe_idempotent_witness :
    (applyIncomeRow [] (c9State, 0) c9Row).1.stats = c9State.stats :=
  syncIncome_dedupe_idempotent.1 [] c9State 0 c9Row (List.mem_cons_self _ _)

end TesBinen
